import Mathlib

/-
Verification of the multi-signal domain availability assessment engine of
scripts/domain_availability_checker.py (and the across-names opportunity
ranking of scripts/simple_domain_checker.py).

Each Python signal checker returns a pair `(exists, message)` where `exists`
is `True`, `False`, or `None`.  We embed that value directly as
`Option Bool`: `some true` is the `Exists` verdict of the spec, `some false` is
`DoesNotExist`, and `none` is `Unknown`.  Scores are embedded as rationals;
on every value the aggregator can produce (quotients a/t with t ∈ {1,2,3}
times 100) the Python float comparisons with 67 and 100 agree with exact
rational arithmetic.
-/

namespace DomainChecker

/-- The tri-state existence flag of one signal result, exactly the Python
`True`/`False`/`None` value: `some true` = Exists, `some false` = DoesNotExist,
`none` = Unknown. -/
abbrev ExistsFlag := Option Bool

/-- One signal result: existence flag plus human-readable reason, the
`(exists, message)` pair each checker returns. -/
abbrev CheckResult := ExistsFlag × String

/-- The per-domain assessment record built by `comprehensive_domain_check`
(the `results` dict, minus the timestamp). -/
structure Assessment where
  domain : String
  dns : CheckResult
  whois : CheckResult
  http : CheckResult
  availability_score : Option ℚ
  likely_available : Option Bool
  confidence : String

/-- Embeds `total_checks` of `comprehensive_domain_check` (lines 131-138): the number
of the three signal flags that are not `None`. -/
def signal_total (d w h : ExistsFlag) : Nat :=
  ([d, w, h].filter fun c => decide (c ≠ none)).length

/-- Embeds the `availability_score` counter of `comprehensive_domain_check` (lines
131-138): the number of signal flags equal to `False` (in Python,
`exists == False` is only true for `False`, never for `None`). -/
def signal_avail (d w h : ExistsFlag) : Nat :=
  ([d, w, h].filter fun c => decide (c = some false)).length

/-- Embeds `availability_percentage` (line 141): `(availability_score / total_checks) * 100`. -/
def availability_percentage (d w h : ExistsFlag) : ℚ :=
  ((signal_avail d w h : ℚ) / (signal_total d w h : ℚ)) * 100

/-- The aggregation part of `comprehensive_domain_check` (lines 108-154):
runs over the three signal results of one domain and derives
`availability_score`, `likely_available` and `confidence`. -/
def comprehensive_domain_check (domain : String)
    (dnsRes whoisRes httpRes : CheckResult) : Assessment :=
  if 0 < signal_total dnsRes.1 whoisRes.1 httpRes.1 then
    if 67 ≤ availability_percentage dnsRes.1 whoisRes.1 httpRes.1 then
      { domain := domain, dns := dnsRes, whois := whoisRes, http := httpRes,
        availability_score := some (availability_percentage dnsRes.1 whoisRes.1 httpRes.1),
        likely_available := some true,
        confidence :=
          if availability_percentage dnsRes.1 whoisRes.1 httpRes.1 = 100 then ("High")
          else ("Medium") }
    else
      { domain := domain, dns := dnsRes, whois := whoisRes, http := httpRes,
        availability_score := some (availability_percentage dnsRes.1 whoisRes.1 httpRes.1),
        likely_available := some false,
        confidence := "Low" }
  else
    { domain := domain, dns := dnsRes, whois := whoisRes, http := httpRes,
      availability_score := none,
      likely_available := none,
      confidence := "Unknown" }

/-- A signal triple with at least one non-Unknown member has a positive
`total_checks` count. -/
lemma signal_total_pos (d w h : ExistsFlag) (hne : d ≠ none ∨ w ≠ none ∨ h ≠ none) :
    0 < signal_total d w h := by
  rcases d with _ | _ <;> rcases w with _ | _ <;> rcases h with _ | _ <;>
    simp_all [signal_total]

/-- Field characterization of `comprehensive_domain_check` when at least one
signal is determined. -/
lemma comprehensive_domain_check_char (domain : String) (r1 r2 r3 : CheckResult)
    (ht : 0 < signal_total r1.1 r2.1 r3.1) :
    (comprehensive_domain_check domain r1 r2 r3).availability_score
        = some (availability_percentage r1.1 r2.1 r3.1)
    ∧ (comprehensive_domain_check domain r1 r2 r3).likely_available
        = some (decide (67 ≤ availability_percentage r1.1 r2.1 r3.1))
    ∧ (comprehensive_domain_check domain r1 r2 r3).confidence
        = if 67 ≤ availability_percentage r1.1 r2.1 r3.1 then
            (if availability_percentage r1.1 r2.1 r3.1 = 100 then ("High") else ("Medium"))
          else ("Low") := by
  unfold comprehensive_domain_check
  split_ifs with h0 h67 <;> simp_all

/-- C1: whenever at least one of the three signal results is not Unknown, the
aggregator score is (count of DoesNotExist among the non-Unknown results) /
(count of non-Unknown results) * 100; score = 100 gives likelyAvailable = true
with confidence High, 67 ≤ score < 100 gives likelyAvailable = true with
confidence Medium, score < 67 gives likelyAvailable = false with confidence
Low; and three DoesNotExist results give likelyAvailable = true, confidence
High, score 100. -/
theorem c1_aggregator_scoring (domain m1 m2 m3 : String) (d w h : ExistsFlag)
    (hne : d ≠ none ∨ w ≠ none ∨ h ≠ none) :
    (comprehensive_domain_check domain (d, m1) (w, m2) (h, m3)).availability_score
        = some (((signal_avail d w h : ℚ) / (signal_total d w h : ℚ)) * 100)
    ∧ (((signal_avail d w h : ℚ) / (signal_total d w h : ℚ)) * 100 = 100 →
        (comprehensive_domain_check domain (d, m1) (w, m2) (h, m3)).likely_available = some true
        ∧ (comprehensive_domain_check domain (d, m1) (w, m2) (h, m3)).confidence = "High")
    ∧ ((67 ≤ ((signal_avail d w h : ℚ) / (signal_total d w h : ℚ)) * 100
          ∧ ((signal_avail d w h : ℚ) / (signal_total d w h : ℚ)) * 100 < 100) →
        (comprehensive_domain_check domain (d, m1) (w, m2) (h, m3)).likely_available = some true
        ∧ (comprehensive_domain_check domain (d, m1) (w, m2) (h, m3)).confidence = "Medium")
    ∧ (((signal_avail d w h : ℚ) / (signal_total d w h : ℚ)) * 100 < 67 →
        (comprehensive_domain_check domain (d, m1) (w, m2) (h, m3)).likely_available = some false
        ∧ (comprehensive_domain_check domain (d, m1) (w, m2) (h, m3)).confidence = "Low")
    ∧ (d = some false ∧ w = some false ∧ h = some false →
        (comprehensive_domain_check domain (d, m1) (w, m2) (h, m3)).likely_available = some true
        ∧ (comprehensive_domain_check domain (d, m1) (w, m2) (h, m3)).confidence = "High"
        ∧ (comprehensive_domain_check domain (d, m1) (w, m2) (h, m3)).availability_score
            = some 100) := by
  have ht : 0 < signal_total d w h := signal_total_pos d w h hne
  obtain ⟨hs, hla, hconf⟩ :=
    comprehensive_domain_check_char domain (d, m1) (w, m2) (h, m3) ht
  dsimp only at hs hla hconf
  simp only [availability_percentage] at hs hla hconf
  refine ⟨hs, ?_, ?_, ?_, ?_⟩
  · intro hp
    have h67 : (67 : ℚ) ≤ ((signal_avail d w h : ℚ) / (signal_total d w h : ℚ)) * 100 := by
      rw [hp]; norm_num
    rw [hla, hconf, if_pos h67, if_pos hp, decide_eq_true h67]
    exact ⟨rfl, rfl⟩
  · rintro ⟨h67, hlt⟩
    rw [hla, hconf, if_pos h67, if_neg (ne_of_lt hlt), decide_eq_true h67]
    exact ⟨rfl, rfl⟩
  · intro hlt
    have h67 : ¬ (67 : ℚ) ≤ ((signal_avail d w h : ℚ) / (signal_total d w h : ℚ)) * 100 :=
      not_le.mpr hlt
    rw [hla, hconf, if_neg h67, decide_eq_false h67]
    exact ⟨rfl, rfl⟩
  · rintro ⟨rfl, rfl, rfl⟩
    have ha : signal_avail (some false) (some false) (some false) = 3 := rfl
    have ht3 : signal_total (some false) (some false) (some false) = 3 := rfl
    have hp : ((signal_avail (some false) (some false) (some false) : ℚ) /
        (signal_total (some false) (some false) (some false) : ℚ)) * 100 = 100 := by
      rw [ha, ht3]; norm_num
    have h67 : (67 : ℚ) ≤ ((signal_avail (some false) (some false) (some false) : ℚ) /
        (signal_total (some false) (some false) (some false) : ℚ)) * 100 := by
      rw [hp]; norm_num
    rw [hla, hconf, hs, if_pos h67, if_pos hp, decide_eq_true h67, hp]
    exact ⟨rfl, rfl, rfl⟩

/-- Witness for C1 at the all-DoesNotExist input: two non-Unknown signals exist
and the assessment is likely available with High confidence and score 100. -/
theorem c1_aggregator_scoring_witness :
    (comprehensive_domain_check ("vexoly.com") (some false, "a") (some false, "b")
        (some false, "c")).likely_available = some true
    ∧ (comprehensive_domain_check ("vexoly.com") (some false, "a") (some false, "b")
        (some false, "c")).confidence = "High"
    ∧ (comprehensive_domain_check ("vexoly.com") (some false, "a") (some false, "b")
        (some false, "c")).availability_score = some 100 :=
  (c1_aggregator_scoring ("vexoly.com") ("a") ("b") ("c") (some false) (some false) (some false)
      (by simp)).2.2.2.2 ⟨rfl, rfl, rfl⟩

/-- C2: when all three signal results are Unknown, the aggregator produces no
score, `likely_available` is null (never true or false) and confidence is
"Unknown". -/
theorem c2_all_unknown (domain m1 m2 m3 : String) :
    (comprehensive_domain_check domain (none, m1) (none, m2) (none, m3)).availability_score = none
    ∧ (comprehensive_domain_check domain (none, m1) (none, m2) (none, m3)).likely_available = none
    ∧ (comprehensive_domain_check domain (none, m1) (none, m2) (none, m3)).confidence = "Unknown"
    ∧ ∀ b : Bool,
        (comprehensive_domain_check domain (none, m1) (none, m2) (none, m3)).likely_available
          ≠ some b := by
  refine ⟨rfl, rfl, rfl, ?_⟩
  intro b
  simp [comprehensive_domain_check, signal_total]

/-- Outcome of the external DNS capability for one `dns.resolver.resolve`
call, covering exactly the branches `check_dns_resolution` (lines 53-63)
distinguishes: success, `NXDOMAIN`, `NoAnswer`, or any other exception. -/
inductive DnsOutcome where
  | resolved
  | nxdomain
  | noAnswer
  | otherError (msg : String)
deriving DecidableEq

/-- Embeds `check_dns_resolution` (lines 53-63): maps the resolver outcome to a
tri-state verdict with a reason; every branch returns a pair, so nothing
escapes to the caller. -/
def check_dns_resolution (o : DnsOutcome) : CheckResult :=
  match o with
  | .resolved => (some true, "Domain resolves")
  | .nxdomain => (some false, "NXDOMAIN - Domain does not exist")
  | .noAnswer => (some true, "Domain exists but no A record")
  | .otherError msg => (none, "DNS check failed: " ++ msg)

/-- A Python WHOIS `creation_date` field value as `check_whois` handles it:
absent (`None`), a single date, or a list of dates. -/
inductive CreationDate where
  | missing
  | single (d : String)
  | listOf (ds : List String)
deriving DecidableEq

/-- Outcome of the external WHOIS capability for one `whois.whois(domain)`
call, covering the branches of `check_whois` (lines 65-81): a parsed record
(with its `domain_name` and `creation_date` fields), a `PywhoisError`, or
any other exception. -/
inductive WhoisOutcome where
  | record (domain_name : Option String) (creation_date : CreationDate)
  | pywhoisError (msg : String)
  | otherError (msg : String)
deriving DecidableEq

/-- Models the Python `str.lower()` method on the ASCII strings the checker handles:
lowercase every character. -/
def strLower (s : String) : String :=
  ⟨s.data.map Char.toLower⟩

/-- Tests that `needle` occurs as a contiguous run inside the character list. -/
def containsSub (needle : List Char) : List Char → Bool
  | [] => needle.isEmpty
  | c :: rest => needle.isPrefixOf (c :: rest) || containsSub needle rest

/-- Models the Python `needle in hay` operator on strings. -/
def strContains (hay needle : String) : Bool :=
  containsSub needle.data hay.data

/-- Embeds `check_whois` (lines 65-81).  `domain_name is None` yields the
available verdict; otherwise the creation date is reported, a list being
replaced by its first element (`creation_date[0]`, line 74; on an empty list
that subscript raises `IndexError`, caught by the final generic handler).
A `PywhoisError` whose text contains `"No match"` or, lowercased,
`"not found"` is the available verdict; any other error is indeterminate. -/
def check_whois (o : WhoisOutcome) : CheckResult :=
  match o with
  | .record none _ => (some false, "Domain available (no WHOIS record)")
  | .record (some _) .missing => (some true, "Domain registered on None")
  | .record (some _) (.single d) => (some true, "Domain registered on " ++ d)
  | .record (some _) (.listOf []) => (none, "WHOIS check failed: list index out of range")
  | .record (some _) (.listOf (d :: _)) => (some true, "Domain registered on " ++ d)
  | .pywhoisError msg =>
      if strContains msg ("No match") || strContains (strLower msg) ("not found") then
        (some false, "Domain available (WHOIS: No match)")
      else
        (none, "WHOIS error: " ++ msg)
  | .otherError msg => (none, "WHOIS check failed: " ++ msg)

/-- Outcome of one HTTP GET attempt by the external HTTP capability: a
response carrying a status code, or one of the exception kinds
`check_http_response` (lines 83-106) handles. -/
inductive HttpOutcome where
  | status (code : Nat)
  | connectionError
  | timeout
  | otherException (msg : String)
deriving DecidableEq

/-- The scheme loop of `check_http_response` (lines 87-104): try each scheme
in order; a response returns immediately through the status mapping;
connection errors, timeouts and any other exception fall through to the next
scheme; when no scheme answered, the fall-through return of line 106 fires. -/
def try_protocols (respond : String → HttpOutcome) (domain : String) :
    List String → CheckResult
  | [] => (some false, "No HTTP response (likely available)")
  | protocol :: rest =>
    match respond (protocol ++ domain) with
    | .status code =>
        if code = 200 then
          (some true, "Active website (" ++ protocol ++ ") - Status: " ++ toString code)
        else if code = 404 then
          (some false, "No website found (" ++ protocol ++ ") - Status: 404")
        else
          (some true, "Website exists (" ++ protocol ++ ") - Status: " ++ toString code)
    | .connectionError => try_protocols respond domain rest
    | .timeout => try_protocols respond domain rest
    | .otherException _ => try_protocols respond domain rest

/-- Embeds `check_http_response` (lines 83-106): secure scheme first, insecure next. -/
def check_http_response (respond : String → HttpOutcome) (domain : String) : CheckResult :=
  try_protocols respond domain ["https://", "http://"]

/-- C6: the DNS check maps successful resolution to Exists, NXDOMAIN to
DoesNotExist, successful resolution without a usable address record to
Exists, and any other failure to Unknown carrying the error text in the
reason; being a total function of the resolver outcome, it never raises to
its caller. -/
theorem c6_dns_result_mapping (msg : String) :
    check_dns_resolution .resolved = (some true, "Domain resolves")
    ∧ check_dns_resolution .nxdomain = (some false, "NXDOMAIN - Domain does not exist")
    ∧ check_dns_resolution .noAnswer = (some true, "Domain exists but no A record")
    ∧ check_dns_resolution (.otherError msg) = (none, "DNS check failed: " ++ msg) :=
  ⟨rfl, rfl, rfl, rfl⟩

/-- C7: the WHOIS check returns DoesNotExist when no registration record is
returned or when the parser error text matches "No match"/"not found";
returns Exists with the creation date in the reason (first element when the
field is a list) when a record with a creation date is returned; and returns
Unknown carrying the error text for any other error, never raising. -/
theorem c7_whois_result_mapping (dn d msg : String) (ds : List String) (cd : CreationDate) :
    check_whois (.record none cd) = (some false, "Domain available (no WHOIS record)")
    ∧ check_whois (.record (some dn) (.single d)) = (some true, "Domain registered on " ++ d)
    ∧ check_whois (.record (some dn) (.listOf (d :: ds)))
        = (some true, "Domain registered on " ++ d)
    ∧ ((strContains msg ("No match") || strContains (strLower msg) ("not found")) = true →
        check_whois (.pywhoisError msg) = (some false, "Domain available (WHOIS: No match)"))
    ∧ ((strContains msg ("No match") || strContains (strLower msg) ("not found")) = false →
        check_whois (.pywhoisError msg) = (none, "WHOIS error: " ++ msg))
    ∧ check_whois (.otherError msg) = (none, "WHOIS check failed: " ++ msg) := by
  refine ⟨?_, rfl, rfl, ?_, ?_, rfl⟩
  · cases cd <;> rfl
  · intro hm
    simp [check_whois, hm]
  · intro hm
    simp [check_whois, hm]

/-- Witness for C7: a "No match" parser error is mapped to DoesNotExist and a
throttling error to Unknown, at concrete inputs. -/
theorem c7_whois_result_mapping_witness :
    check_whois (.pywhoisError ("No match for domain x.com"))
        = (some false, "Domain available (WHOIS: No match)")
    ∧ check_whois (.pywhoisError ("connection reset"))
        = (none, "WHOIS error: connection reset") :=
  ⟨(c7_whois_result_mapping ("x") ("d") ("No match for domain x.com") [] .missing).2.2.2.1
      (by decide),
    (c7_whois_result_mapping ("x") ("d") ("connection reset") [] .missing).2.2.2.2.1
      (by decide)⟩

/-- C3: when both the secure and the insecure scheme attempt fail to connect
(connection error or timeout), the HTTP check returns DoesNotExist with the
no-HTTP-response reason text, not Unknown. -/
theorem c3_http_both_schemes_fail (respond : String → HttpOutcome) (domain : String)
    (h1 : respond ("https://" ++ domain) = .connectionError
        ∨ respond ("https://" ++ domain) = .timeout)
    (h2 : respond ("http://" ++ domain) = .connectionError
        ∨ respond ("http://" ++ domain) = .timeout) :
    check_http_response respond domain = (some false, "No HTTP response (likely available)") := by
  rcases h1 with h1 | h1 <;> rcases h2 with h2 | h2 <;>
    simp [check_http_response, try_protocols, h1, h2]

/-- Witness for C3: a capability refusing every connection yields the
DoesNotExist verdict with the no-HTTP-response reason. -/
theorem c3_http_both_schemes_fail_witness :
    check_http_response (fun _ => .connectionError) ("vexoly.com")
      = (some false, "No HTTP response (likely available)") :=
  c3_http_both_schemes_fail (fun _ => .connectionError) ("vexoly.com") (Or.inl rfl) (Or.inl rfl)

/-- The scheme loop never yields the Unknown flag, for any capability
behavior and any scheme list. -/
lemma try_protocols_ne_none (respond : String → HttpOutcome) (domain : String) :
    ∀ ps : List String, (try_protocols respond domain ps).1 ≠ none := by
  intro ps
  induction ps with
  | nil => simp [try_protocols]
  | cons p rest ih =>
    rcases hr : respond (p ++ domain) with code | _ | _ | msg <;>
      simp only [try_protocols, hr]
    · split_ifs <;> simp
    · exact ih
    · exact ih
    · exact ih

/-- C9: for every domain and every behavior of the HTTP capability (any
status code or exception on either scheme), the HTTP check returns Exists or
DoesNotExist together with a reason string; it never returns Unknown, and
being a total function of the capability outcomes it never raises. -/
theorem c9_http_never_unknown (respond : String → HttpOutcome) (domain : String) :
    ∃ (b : Bool) (reason : String), check_http_response respond domain = (some b, reason) := by
  rcases hb : (check_http_response respond domain).1 with _ | b
  · exact absurd hb (try_protocols_ne_none respond domain ["https://", "http://"])
  · exact ⟨b, (check_http_response respond domain).2, by rw [← hb]⟩

/-- Embeds `generate_domain_variations` (lines 156-170): lowercase the base name
once; the outer loop walks the suffixes (an empty suffix leaving the name
bare), the inner loop walks the extensions, appending one variation per
(suffix, extension) pair in that product order. -/
def generate_domain_variations (suffixes extensions : List String) (base_name : String) :
    List String :=
  (suffixes.map fun suffix =>
    extensions.map fun ext =>
      (if suffix ≠ "" then strLower base_name ++ suffix else strLower base_name) ++ ext).flatten

/-- C4: the variation generator returns exactly the product-order sequence
lowercase(name)+suffix+extension (suffixes outer, extensions inner); its
output length is |suffixes| * |extensions|; two calls on the same input give
identical ordered output; and name "ACME" with suffixes ["", "hq"] and
extensions [".com", ".io"] yields ["acme.com","acme.io","acmehq.com","acmehq.io"]. -/
theorem c4_variation_generator (suffixes extensions : List String) (name : String) :
    generate_domain_variations suffixes extensions name
      = (suffixes.map fun suffix => extensions.map fun ext =>
          strLower name ++ suffix ++ ext).flatten
    ∧ (generate_domain_variations suffixes extensions name).length
        = suffixes.length * extensions.length
    ∧ generate_domain_variations suffixes extensions name
        = generate_domain_variations suffixes extensions name
    ∧ generate_domain_variations ["", "hq"] [".com", ".io"] ("ACME")
        = ["acme.com", "acme.io", "acmehq.com", "acmehq.io"] := by
  have hbase : ∀ b s : String, (if s ≠ "" then b ++ s else b) = b ++ s := by
    intro b s
    split_ifs with hs
    · rfl
    · simp only [ne_eq, not_not] at hs
      rw [hs, String.append_empty]
  refine ⟨?_, ?_, rfl, by decide⟩
  · simp only [generate_domain_variations, hbase]
  · simp only [generate_domain_variations, List.length_flatten, List.map_map]
    induction suffixes with
    | nil => simp
    | cons s rest ih =>
      simp only [List.map_cons, List.sum_cons, ih, Function.comp_apply, List.length_map]
      rw [List.length_cons]
      ring

/-- Lexicographic order on Python sort keys `(bool, number)`:
`False < True`, numbers by their order. -/
def keyLE {β : Type} [LE β] (a b : Bool × β) : Prop :=
  a.1 = false ∧ b.1 = true ∨ a.1 = b.1 ∧ a.2 ≤ b.2

instance {β : Type} [LE β] [DecidableEq β] [DecidableRel (α := β) (· ≤ ·)]
    (a b : Bool × β) : Decidable (keyLE a b) := by
  unfold keyLE
  infer_instance

lemma keyLE_refl {β : Type} [Preorder β] (a : Bool × β) : keyLE a a :=
  Or.inr ⟨rfl, le_refl _⟩

lemma keyLE_total {β : Type} [LinearOrder β] (a b : Bool × β) : keyLE a b ∨ keyLE b a := by
  rcases a with ⟨ab, as⟩
  rcases b with ⟨bb, bs⟩
  rcases ab <;> rcases bb <;> simp [keyLE] <;> exact le_total _ _

lemma keyLE_trans {β : Type} [LinearOrder β] (a b c : Bool × β)
    (hab : keyLE a b) (hbc : keyLE b c) : keyLE a c := by
  rcases a with ⟨ab, as⟩
  rcases b with ⟨bb, bs⟩
  rcases c with ⟨cb, cs⟩
  rcases ab <;> rcases bb <;> rcases cb <;> simp_all [keyLE] <;> exact le_trans hab hbc

section StableSort

variable {α κ : Type} [DecidableEq κ]

/-- Inserting an element whose key is `k` adds it in front of the
`key = k` fragment: every element `orderedInsert` walks past is strictly
above the inserted one, hence has a different key. -/
lemma filter_orderedInsert_eq (r : α → α → Prop) [DecidableRel r] (key : α → κ)
    (hrefl : ∀ x y, key x = key y → r x y) (k : κ) (x : α) (hx : key x = k) :
    ∀ l : List α,
      (l.orderedInsert r x).filter (fun y => decide (key y = k))
        = x :: l.filter (fun y => decide (key y = k))
  | [] => by simp [List.orderedInsert, hx]
  | b :: t => by
    rw [List.orderedInsert]
    by_cases hr : r x b
    · rw [if_pos hr]
      simp [List.filter_cons, hx]
    · rw [if_neg hr]
      have hbk : key b ≠ k := fun hbk => hr (hrefl x b (hx.trans hbk.symm))
      simp [List.filter_cons, hbk, filter_orderedInsert_eq r key hrefl k x hx t]

/-- Inserting an element with a different key leaves the `key = k`
fragment unchanged. -/
lemma filter_orderedInsert_ne (r : α → α → Prop) [DecidableRel r] (key : α → κ)
    (k : κ) (x : α) (hx : key x ≠ k) :
    ∀ l : List α,
      (l.orderedInsert r x).filter (fun y => decide (key y = k))
        = l.filter (fun y => decide (key y = k))
  | [] => by simp [List.orderedInsert, hx]
  | b :: t => by
    rw [List.orderedInsert]
    by_cases hr : r x b
    · rw [if_pos hr]
      simp [List.filter_cons, hx]
    · rw [if_neg hr]
      simp [List.filter_cons, filter_orderedInsert_ne r key k x hx t]

/-- Stability of the insertion sort: for any fixed key value, the sorted
list restricted to that key is the input restricted to that key, in the
original order. -/
lemma insertionSort_filter_key (r : α → α → Prop) [DecidableRel r] (key : α → κ)
    (hrefl : ∀ x y, key x = key y → r x y) :
    ∀ (l : List α) (k : κ),
      (l.insertionSort r).filter (fun y => decide (key y = k))
        = l.filter (fun y => decide (key y = k))
  | [], _ => rfl
  | b :: t, k => by
    rw [List.insertionSort]
    by_cases hb : key b = k
    · rw [filter_orderedInsert_eq r key hrefl k b hb,
        insertionSort_filter_key r key hrefl t k]
      simp [List.filter_cons, hb]
    · rw [filter_orderedInsert_ne r key k b hb,
        insertionSort_filter_key r key hrefl t k]
      simp [List.filter_cons, hb]

end StableSort

/-- One entry of `business_results["available_domains"]` (lines 200-204):
domain, confidence label, availability score. -/
structure AvailableDomain where
  domain : String
  confidence : String
  score : ℚ
deriving DecidableEq

/-- The sort key of line 231: `(x["confidence"] == "High", x["score"])`. -/
def comKey (d : AvailableDomain) : Bool × ℚ :=
  (d.confidence == "High", d.score)

/-- Holds when `x` may precede `y` in the reverse-sorted `.com` ranking: the key of `x` is
at least the key of `y`. -/
def comGE (x y : AvailableDomain) : Prop :=
  keyLE (comKey y) (comKey x)

instance : DecidableRel comGE := fun x y =>
  inferInstanceAs (Decidable (keyLE (comKey y) (comKey x)))

instance : IsTotal AvailableDomain comGE :=
  ⟨fun x y => keyLE_total (comKey y) (comKey x)⟩

instance : IsTrans AvailableDomain comGE :=
  ⟨fun _ _ _ hxy hyz => keyLE_trans _ _ _ hyz hxy⟩

/-- Line 231: `com_options.sort` on the key `(x["confidence"] == "High",
x["score"])` with `reverse=True`.  The Python sort is stable, and a stable sort by
a total preorder is unique, so the stable insertion sort with respect to
the descending key order models it exactly. -/
def sortComOptions (l : List AvailableDomain) : List AvailableDomain :=
  l.insertionSort comGE

/-- Models the Python `str.endswith` test of line 228. -/
def strEndsWith (s suffix : String) : Bool :=
  suffix.data.isSuffixOf s.data

/-- Embeds lines 228-231 of `check_business_name`: restrict
`available_domains` to the `.com` entries and sort them by the descending
key.  The input list is `available_domains`, which the completion loop of
line 193 (`as_completed`) fills in probe-completion order — a
scheduler-dependent permutation of the generation order, so it is an
explicit parameter here. -/
def rank_com_options (available_domains : List AvailableDomain) : List AvailableDomain :=
  sortComOptions (available_domains.filter fun d => strEndsWith d.domain (".com"))

/-- C5 counterexample: the claim that equal-confidence, equal-score `.com`
options keep their generation order fails.  Generation order emits
"acme.com" before "acmehq.com" (suffixes are looped outermost, the empty
suffix first), but the completion loop may collect the assessments in the
reversed order — a permutation of the generation order, as the first
conjunct records.  Both options carry confidence "High" and score 100
(equal keys, second conjunct), yet the ranking keeps the later-generated
"acmehq.com" first (third conjunct): ties follow completion order, not
generation order. -/
theorem c5_com_ranking_counterexample :
    ([⟨"acmehq.com", "High", (100 : ℚ)⟩, ⟨"acme.com", "High", 100⟩] :
        List AvailableDomain).Perm
      [⟨"acme.com", "High", 100⟩, ⟨"acmehq.com", "High", 100⟩]
    ∧ comKey ⟨"acmehq.com", "High", 100⟩ = comKey ⟨"acme.com", "High", 100⟩
    ∧ rank_com_options [⟨"acmehq.com", "High", 100⟩, ⟨"acme.com", "High", 100⟩]
        = [⟨"acmehq.com", "High", 100⟩, ⟨"acme.com", "High", 100⟩] :=
  ⟨by decide, rfl, by decide⟩

/-- C5 (amended): the `.com` ranking sorts primarily by
confidence-equals-High (descending) and secondarily by score (descending) —
`Sorted comGE` — is a permutation of the `.com` entries of the collected
list, and keeps the collection order (the order in which the completion
loop appended the assessments) of any two options with equal confidence and
equal score: for every key value the ranking restricted to that key equals
the collected `.com` list restricted to it.  The sort itself never reorders
ties; only the collection order, not the generation order, is what it
preserves. -/
theorem c5_com_ranking_stable (l : List AvailableDomain) :
    List.Sorted comGE (rank_com_options l)
    ∧ (rank_com_options l).Perm (l.filter fun d => strEndsWith d.domain (".com"))
    ∧ ∀ k : Bool × ℚ,
        (rank_com_options l).filter (fun d => decide (comKey d = k))
          = (l.filter fun d => strEndsWith d.domain (".com")).filter
              (fun d => decide (comKey d = k)) :=
  ⟨List.sorted_insertionSort comGE (l.filter fun d => strEndsWith d.domain (".com")),
    List.perm_insertionSort comGE (l.filter fun d => strEndsWith d.domain (".com")),
    fun k => insertionSort_filter_key comGE comKey
      (fun x y hxy => by
        unfold comGE
        rw [hxy]
        exact keyLE_refl (comKey y)) (l.filter fun d => strEndsWith d.domain (".com")) k⟩

/-- One entry of `best_opportunities` in the run summary of
simple_domain_checker.py (lines 232-239): candidate name, whether a `.com`
is available for it, and its count of likely-available domains (the fields
the ranking key reads). -/
structure Opportunity where
  name : String
  com_available : Bool
  total_available : Nat
deriving DecidableEq

/-- The sort key of simple_domain_checker.py line 247:
`(x["com_available"], x["total_available"])`. -/
def oppKey (o : Opportunity) : Bool × Nat :=
  (o.com_available, o.total_available)

/-- Holds when `x` may precede `y` in the reverse-sorted opportunity ranking. -/
def oppGE (x y : Opportunity) : Prop :=
  keyLE (oppKey y) (oppKey x)

instance : DecidableRel oppGE := fun x y =>
  inferInstanceAs (Decidable (keyLE (oppKey y) (oppKey x)))

instance : IsTotal Opportunity oppGE :=
  ⟨fun x y => keyLE_total (oppKey y) (oppKey x)⟩

instance : IsTrans Opportunity oppGE :=
  ⟨fun _ _ _ hxy hyz => keyLE_trans _ _ _ hyz hxy⟩

/-- simple_domain_checker.py lines 246-249:
`best_opportunities.sort` on the key `(x["com_available"],
x["total_available"])` with `reverse=True`, modelled by the stable insertion
sort with respect to the descending key order. -/
def sort_best_opportunities (l : List Opportunity) : List Opportunity :=
  l.insertionSort oppGE

/-- One entry of `best_opportunities` in the overall summary of
domain_availability_checker.py (lines 263-267); entries are only appended
for names whose `best_com_option` is set, so every entry has a `.com`
available. -/
structure OpportunityC where
  business_name : String
  best_com_domain : String
  total_available : Nat
deriving DecidableEq

/-- Holds when `x` may precede `y` in the reverse-sorted comprehensive ranking:
domain_availability_checker.py line 277 sorts by `x["total_available"]`
alone, descending. -/
def oppCompGE (x y : OpportunityC) : Prop :=
  y.total_available ≤ x.total_available

instance : DecidableRel oppCompGE := fun x y =>
  inferInstanceAs (Decidable (y.total_available ≤ x.total_available))

instance : IsTotal OpportunityC oppCompGE :=
  ⟨fun x y => le_total y.total_available x.total_available⟩

instance : IsTrans OpportunityC oppCompGE :=
  ⟨fun _ _ _ hxy hyz => le_trans hyz hxy⟩

/-- domain_availability_checker.py lines 275-278:
`best_opportunities.sort` on the key `x["total_available"]` with `reverse=True`. -/
def sort_best_opportunities_comp (l : List OpportunityC) : List OpportunityC :=
  l.insertionSort oppCompGE

/-- C8: the opportunity ranking of the run orders names by the pair (has a .com
available, count of likely-available domains), descending: in
simple_domain_checker.py directly by that pair key, and in
domain_availability_checker.py — whose entries all have a `.com` available —
the total-available sort leaves the list sorted by that same pair order. -/
theorem c8_opportunity_ranking (l : List Opportunity) (lc : List OpportunityC) :
    List.Sorted oppGE (sort_best_opportunities l)
    ∧ (sort_best_opportunities l).Perm l
    ∧ List.Sorted
        (fun x y => keyLE ((true, y.total_available) : Bool × Nat) (true, x.total_available))
        (sort_best_opportunities_comp lc)
    ∧ (sort_best_opportunities_comp lc).Perm lc :=
  ⟨List.sorted_insertionSort oppGE l, List.perm_insertionSort oppGE l,
    (List.sorted_insertionSort oppCompGE lc).imp fun h => Or.inr ⟨rfl, h⟩,
    List.perm_insertionSort oppCompGE lc⟩

/-- Python truthiness of the `Optional[bool]` field `likely_available`:
only `True` is truthy; `False` and `None` are falsy. -/
def truthy : Option Bool → Bool
  | some true => true
  | _ => false

/-- The result-collection branch of completion loop of `check_business_name`
(lines 193-206): the domain of each completed assessment joins
`available_domains` (with its confidence and score) when
`result["likely_available"]` is truthy, and `registered_domains` otherwise
(`False` and `None` alike), in completion order.  The score is read with a
default that is never used: the aggregator sets `availability_score`
whenever `likely_available` is truthy. -/
def collect_domains : List Assessment → List AvailableDomain × List String
  | [] => ([], [])
  | r :: rest =>
    if truthy r.likely_available then
      (⟨r.domain, r.confidence, r.availability_score.getD 0⟩ :: (collect_domains rest).1,
        (collect_domains rest).2)
    else
      ((collect_domains rest).1, r.domain :: (collect_domains rest).2)

/-- C10: the domain of every completed assessment lands in exactly one of
`available_domains` and `registered_domains` (together they are a
permutation of the assessed domains and their sizes add up); a truthy
verdict goes to the available bucket, a falsy one to the registered bucket,
and in particular an all-Unknown assessment (`likely_available` null) is
placed in `registered_domains`, not omitted. -/
theorem c10_each_domain_in_one_bucket (results : List Assessment) :
    ((collect_domains results).1.map AvailableDomain.domain
        ++ (collect_domains results).2).Perm (results.map Assessment.domain)
    ∧ (collect_domains results).1.length + (collect_domains results).2.length = results.length
    ∧ (∀ r ∈ results, truthy r.likely_available = true →
        r.domain ∈ (collect_domains results).1.map AvailableDomain.domain)
    ∧ (∀ r ∈ results, truthy r.likely_available = false →
        r.domain ∈ (collect_domains results).2)
    ∧ (∀ r ∈ results, r.likely_available = none →
        r.domain ∈ (collect_domains results).2) := by
  induction results with
  | nil => simp [collect_domains]
  | cons r rest ih =>
    obtain ⟨ihp, ihl, iha, ihr, ihn⟩ := ih
    by_cases hr : truthy r.likely_available = true
    · refine ⟨?_, ?_, ?_, ?_, ?_⟩
      · simp only [collect_domains, hr, if_pos, List.map_cons, List.cons_append,
          List.map_cons]
        exact ihp.cons r.domain
      · simp only [collect_domains, hr, if_pos, List.length_cons]
        omega
      · intro x hx hxt
        rcases List.mem_cons.mp hx with rfl | hx
        · simp [collect_domains, hr]
        · simp only [collect_domains, hr, if_pos, List.map_cons, List.mem_cons]
          exact Or.inr (iha x hx hxt)
      · intro x hx hxf
        rcases List.mem_cons.mp hx with rfl | hx
        · rw [hr] at hxf
          exact absurd hxf (by simp)
        · simp only [collect_domains, hr, if_pos]
          exact ihr x hx hxf
      · intro x hx hxn
        rcases List.mem_cons.mp hx with rfl | hx
        · rw [hxn] at hr
          exact absurd hr (by simp [truthy])
        · simp only [collect_domains, hr, if_pos]
          exact ihn x hx hxn
    · rw [Bool.not_eq_true] at hr
      refine ⟨?_, ?_, ?_, ?_, ?_⟩
      · simp only [collect_domains, hr, Bool.false_eq_true, if_neg, not_false_iff,
          List.map_cons]
        exact List.perm_middle.trans (ihp.cons r.domain)
      · simp only [collect_domains, hr, Bool.false_eq_true, if_neg, not_false_iff,
          List.length_cons]
        omega
      · intro x hx hxt
        rcases List.mem_cons.mp hx with rfl | hx
        · rw [hr] at hxt
          exact absurd hxt (by simp)
        · simp only [collect_domains, hr, Bool.false_eq_true, if_neg, not_false_iff]
          exact iha x hx hxt
      · intro x hx hxf
        rcases List.mem_cons.mp hx with rfl | hx
        · simp [collect_domains, hr]
        · simp only [collect_domains, hr, Bool.false_eq_true, if_neg, not_false_iff,
            List.mem_cons]
          exact Or.inr (ihr x hx hxf)
      · intro x hx hxn
        rcases List.mem_cons.mp hx with rfl | hx
        · simp [collect_domains, hr]
        · simp only [collect_domains, hr, Bool.false_eq_true, if_neg, not_false_iff,
            List.mem_cons]
          exact Or.inr (ihn x hx hxn)

/-- Witness for C10: a single all-Unknown assessment is placed in the
registered bucket. -/
theorem c10_each_domain_in_one_bucket_witness :
    "unknown.com" ∈ (collect_domains
      [⟨"unknown.com", (none, "a"), (none, "b"), (none, "c"), none, none, "Unknown"⟩]).2 :=
  (c10_each_domain_in_one_bucket
    [⟨"unknown.com", (none, "a"), (none, "b"), (none, "c"), none, none, "Unknown"⟩]).2.2.2.2
    ⟨"unknown.com", (none, "a"), (none, "b"), (none, "c"), none, none, "Unknown"⟩
    (by simp) rfl

end DomainChecker
